import Mathlib

/-!
Verification development for the nyxflare DNS console (src/main.rs).

The Rust source is shallowly embedded: plain structs become structures,
`&mut self` methods become state-passing functions `App σ → … × App σ`,
`anyhow::Result` becomes `Except String`, and the `DnsBackend` trait becomes
a record of state-passing functions `Backend σ` (the type parameter `σ` is
the concrete adapter's private state, e.g. the deterministic adapter's map).
Persisted configuration writes are modelled by the `config_file` field of
`App`, which mirrors the content last written by `Config::save`.
-/

set_option maxRecDepth 100000

deriving instance DecidableEq for Except

namespace Nyxflare

/-! ## Character-level models of the Rust string primitives

The Rust code manipulates `String`/`str` values; the embedding models the
relevant primitives on the character list underlying a Lean `String`, so that
every definition evaluates by kernel reduction. -/

/-- Models Rust `str::trim` (drop whitespace from both ends). -/
def strTrim (s : String) : String :=
  ⟨((s.data.dropWhile Char.isWhitespace).reverse.dropWhile Char.isWhitespace).reverse⟩

/-- Models Rust `String::pop` (drop the last character). -/
def strPop (s : String) : String :=
  ⟨s.data.dropLast⟩

/-- Models Rust `str::to_lowercase`. -/
def strToLower (s : String) : String :=
  ⟨s.data.map Char.toLower⟩

/-- Models Rust `str::replace(' ', "")` (remove every space). -/
def stripSpaces (s : String) : String :=
  ⟨s.data.filter (fun c => c ≠ ' ')⟩

/-- Models Rust `str::contains` (substring containment, character level). -/
def strContains (hay needle : String) : Bool :=
  decide (needle.data <:+: hay.data)

/-- Decimal-digit accumulator for `parse_u32`. -/
def parseDigits : Nat → List Char → Option Nat
  | acc, [] => some acc
  | acc, c :: cs =>
    if c.isDigit then parseDigits (acc * 10 + (c.toNat - 48)) cs else none

/-- Models Rust `str::parse::<u32>`: an optional leading plus sign followed by
at least one decimal digit, rejecting values that overflow `u32`. -/
def parse_u32 (s : String) : Option Nat :=
  let ds :=
    match s.data with
    | '+' :: rest => rest
    | other => other
  if ds.isEmpty then none
  else
    match parseDigits 0 ds with
    | some n => if n < 4294967296 then some n else none
    | none => none

/-! ## Entity model -/

inductive AuthMode where
  | token
  | globalKey
deriving DecidableEq, Repr

structure Account where
  name : String
  api_token : String
  email : Option String
  account_id : Option String
  auth_mode : AuthMode
deriving DecidableEq, Repr

structure Zone where
  id : String
  name : String
deriving DecidableEq, Repr

structure DnsRecord where
  id : String
  name : String
  record_type : String
  content : String
  ttl : Nat
  proxied : Bool
deriving DecidableEq, Repr

structure Config where
  accounts : List Account
deriving DecidableEq, Repr

/-! ## Forms and modal state -/

structure AccountForm where
  name : String
  api_token : String
  email : String
  account_id : String
  field_index : Nat
deriving DecidableEq, Repr

/-- Mirrors `AccountForm::default()` (all fields empty, cursor on field 0). -/
def AccountForm.default : AccountForm :=
  { name := "", api_token := "", email := "", account_id := "", field_index := 0 }

def AccountForm.next_field (f : AccountForm) : AccountForm :=
  { f with field_index := min (f.field_index + 1) 3 }

def AccountForm.previous_field (f : AccountForm) : AccountForm :=
  if f.field_index = 0 then { f with field_index := 0 }
  else { f with field_index := f.field_index - 1 }

/-- Mirrors `AccountForm::insert_char` (push onto the active field). -/
def AccountForm.insert_char (f : AccountForm) (c : Char) : AccountForm :=
  match f.field_index with
  | 0 => { f with name := f.name.push c }
  | 1 => { f with api_token := f.api_token.push c }
  | 2 => { f with email := f.email.push c }
  | _ => { f with account_id := f.account_id.push c }

/-- Mirrors `AccountForm::backspace` (pop from the active field). -/
def AccountForm.backspace (f : AccountForm) : AccountForm :=
  match f.field_index with
  | 0 => { f with name := strPop f.name }
  | 1 => { f with api_token := strPop f.api_token }
  | 2 => { f with email := strPop f.email }
  | _ => { f with account_id := strPop f.account_id }

def AccountForm.is_ready (f : AccountForm) : Bool :=
  !(strTrim f.name).isEmpty && !(strTrim f.api_token).isEmpty

/-- Mirrors `AccountForm::build_account`. -/
def AccountForm.build_account (f : AccountForm) : Except String Account :=
  if !f.is_ready then .error "Name and API token are required"
  else .ok
    { name := strTrim f.name
      api_token := strTrim f.api_token
      email := if (strTrim f.email).isEmpty then none else some (strTrim f.email)
      account_id :=
        if (strTrim f.account_id).isEmpty then none else some (strTrim f.account_id)
      auth_mode := .token }

structure RecordDraft where
  name : String
  record_type : String
  content : String
  ttl : String
  proxied : Bool
deriving DecidableEq, Repr

/-- Mirrors `impl Default for RecordDraft`. -/
def RecordDraft.default : RecordDraft :=
  { name := "", record_type := "A", content := "", ttl := "300", proxied := true }

def RecordDraft.from_record (r : DnsRecord) : RecordDraft :=
  { name := r.name, record_type := r.record_type, content := r.content
    ttl := Nat.repr r.ttl, proxied := r.proxied }

/-- Mirrors `RecordDraft::to_record`. -/
def RecordDraft.to_record (d : RecordDraft) (id : String) : Except String DnsRecord :=
  match parse_u32 (strTrim d.ttl) with
  | none => .error "TTL must be a number"
  | some ttl =>
    if (strTrim d.name).isEmpty || (strTrim d.record_type).isEmpty then
      .error "Name and type are required"
    else .ok
      { id := id, name := strTrim d.name, record_type := strTrim d.record_type
        content := strTrim d.content, ttl := ttl, proxied := d.proxied }

structure RecordForm where
  draft : RecordDraft
  field_index : Nat
  is_edit : Bool
  target_id : Option String
deriving DecidableEq, Repr

structure ConfirmDelete where
  record_id : String
  record_name : String
deriving DecidableEq, Repr

inductive Focus where
  | accounts
  | zones
  | records
deriving DecidableEq, Repr

inductive Mode where
  | normal
  | addingAccount (form : AccountForm)
  | recordForm (form : RecordForm)
  | confirmDelete (confirm : ConfirmDelete)
  | searching (text : String)
deriving DecidableEq, Repr

/-- The key events the handlers distinguish (crossterm `KeyCode`); `other`
stands for every key that all handlers ignore. -/
inductive KeyCode where
  | char (c : Char)
  | enter
  | esc
  | tab
  | backTab
  | up
  | down
  | pageUp
  | pageDown
  | backspace
  | other
deriving DecidableEq, Repr

/-! ## Backend Contract -/

/-- The `DnsBackend` trait: five operations over an adapter-private state `σ`
(the state threading models `&mut self`). -/
structure Backend (σ : Type) where
  list_zones : σ → Account → Except String (List Zone) × σ
  list_records : σ → Account → Zone → Except String (List DnsRecord) × σ
  create_record : σ → Account → Zone → DnsRecord → Except String DnsRecord × σ
  update_record : σ → Account → Zone → DnsRecord → Except String DnsRecord × σ
  delete_record : σ → Account → Zone → String → Except String Unit × σ

/-! ## Console Controller state -/

structure App (σ : Type) where
  config_path : String
  backend : σ
  accounts : List Account
  selected_account : Nat
  zones : List Zone
  selected_zone : Nat
  selected_record : Nat
  records : List DnsRecord
  focus : Focus
  mode : Mode
  record_filter : String
  record_page : Nat
  record_page_size : Nat
  last_message : String
  config_file : Option (List Account)
deriving DecidableEq, Repr

variable {σ : Type}

def App.current_account (app : App σ) : Option Account :=
  app.accounts[app.selected_account]?

def App.current_zone (app : App σ) : Option Zone :=
  app.zones[app.selected_zone]?

/-- Mirrors `App::filtered_records` (a derived view; never mutates `records`). -/
def App.filtered_records (app : App σ) : List DnsRecord :=
  if (strTrim app.record_filter).isEmpty then app.records
  else
    let needle := strToLower app.record_filter
    app.records.filter fun r =>
      strContains (strToLower r.name) needle ||
        strContains (strToLower r.content) needle ||
        strContains (strToLower r.record_type) needle

def App.page_size (app : App σ) : Nat :=
  max app.record_page_size 1

/-- Models `usize::div_ceil` (exact for a positive divisor, the only use here). -/
def divCeil (a b : Nat) : Nat :=
  (a + b - 1) / b

def App.record_page_count (app : App σ) (total : Nat) : Nat :=
  if total = 0 then 0 else divCeil total app.page_size

/-- Mirrors `App::paged_records`. `none` models the Rust slice-index panic that
occurs when `start` exceeds the filtered length (so the slice range is
inverted); the source guards only against an empty filtered view. -/
def App.paged_records (app : App σ) : Option (List DnsRecord) :=
  let filtered := app.filtered_records
  if filtered.isEmpty then some filtered
  else
    let start := app.record_page * app.page_size
    let stop := min (start + app.page_size) filtered.length
    if start ≤ filtered.length then some ((filtered.drop start).take (stop - start))
    else none

def App.ensure_record_visible (app : App σ) (total : Nat) : App σ :=
  if total = 0 then { app with record_page := 0, selected_record := 0 }
  else
    let page := app.selected_record / app.page_size
    { app with record_page := min page (app.record_page_count total - 1) }

def App.next_record (app : App σ) : App σ :=
  let total := app.filtered_records.length
  if total = 0 then app
  else
    App.ensure_record_visible
      { app with selected_record := min (app.selected_record + 1) (total - 1) } total

def App.previous_record (app : App σ) : App σ :=
  let total := app.filtered_records.length
  if total = 0 then app
  else
    let app :=
      if app.selected_record = 0 then { app with selected_record := 0 }
      else { app with selected_record := app.selected_record - 1 }
    App.ensure_record_visible app total

def App.next_page (app : App σ) : App σ :=
  let total := app.filtered_records.length
  let page_count := app.record_page_count total
  if page_count = 0 then app
  else
    let app := { app with record_page := (app.record_page + 1) % page_count }
    { app with selected_record := app.record_page * app.page_size }

def App.previous_page (app : App σ) : App σ :=
  let total := app.filtered_records.length
  let page_count := app.record_page_count total
  if page_count = 0 then app
  else
    let app :=
      if app.record_page = 0 then { app with record_page := page_count - 1 }
      else { app with record_page := app.record_page - 1 }
    { app with selected_record := app.record_page * app.page_size }

/-- Mirrors `App::refresh_zones`; a failed `list_zones` call propagates before
any list or message is written. -/
def App.refresh_zones (app : App σ) (B : Backend σ) : Except String Unit × App σ :=
  match app.current_account with
  | some account =>
    match B.list_zones app.backend account with
    | (.error e, s) => (.error e, { app with backend := s })
    | (.ok zones, s) =>
      let app := { app with backend := s, zones := zones }
      let app :=
        if app.zones.length ≤ app.selected_zone then { app with selected_zone := 0 } else app
      (.ok (), { app with
        last_message :=
          "Loaded " ++ Nat.repr app.zones.length ++ " zone(s) for " ++ account.name })
  | none => (.ok (), { app with zones := [], records := [] })

/-- Mirrors `App::refresh_records`; a failed `list_records` call propagates
before the record list, selection, or page are written. -/
def App.refresh_records (app : App σ) (B : Backend σ) : Except String Unit × App σ :=
  match app.current_account, app.current_zone with
  | some account, some zone =>
    match B.list_records app.backend account zone with
    | (.error e, s) => (.error e, { app with backend := s })
    | (.ok records, s) =>
      let app := { app with backend := s, records := records }
      let app := { app with
        last_message := Nat.repr app.records.length ++ " record(s) in " ++ zone.name }
      (.ok (), { app with selected_record := 0, record_page := 0 })
  | _, _ =>
    (.ok (), { app with records := [], selected_record := 0, record_page := 0 })

def App.refresh_current (app : App σ) (B : Backend σ) : Except String Unit × App σ :=
  match app.refresh_zones B with
  | (.error e, app) => (.error e, app)
  | (.ok _, app) => app.refresh_records B

def App.next_account (app : App σ) (B : Backend σ) : Except String Unit × App σ :=
  if app.accounts.isEmpty then (.ok (), app)
  else
    let app := { app with
      selected_account := (app.selected_account + 1) % app.accounts.length
      selected_zone := 0 }
    app.refresh_current B

def App.previous_account (app : App σ) (B : Backend σ) : Except String Unit × App σ :=
  if app.accounts.isEmpty then (.ok (), app)
  else
    let app :=
      if app.selected_account = 0 then
        { app with selected_account := app.accounts.length - 1 }
      else { app with selected_account := app.selected_account - 1 }
    (({ app with selected_zone := 0 } : App σ)).refresh_current B

def App.next_zone (app : App σ) (B : Backend σ) : Except String Unit × App σ :=
  if app.zones.isEmpty then (.ok (), app)
  else
    let app := { app with selected_zone := (app.selected_zone + 1) % app.zones.length }
    app.refresh_records B

def App.previous_zone (app : App σ) (B : Backend σ) : Except String Unit × App σ :=
  if app.zones.isEmpty then (.ok (), app)
  else
    let app :=
      if app.selected_zone = 0 then { app with selected_zone := app.zones.length - 1 }
      else { app with selected_zone := app.selected_zone - 1 }
    app.refresh_records B

/-- Mirrors `App::update_record_page_size` (page size derived from the
available display rows; header and borders take three rows). -/
def App.update_record_page_size (app : App σ) (area_height : Nat) : App σ :=
  let usable_rows := area_height
  let new_size := max (usable_rows - 3) 1
  if new_size ≠ app.record_page_size then
    let app := { app with record_page_size := new_size }
    let total := app.filtered_records.length
    let page_count := app.record_page_count total
    let app := { app with record_page := min app.record_page (page_count - 1) }
    let app := { app with selected_record := min app.selected_record (total - 1) }
    app.ensure_record_visible total
  else app

def App.start_add_account (app : App σ) : App σ :=
  { app with mode := .addingAccount AccountForm.default
             last_message := "Add a Cloudflare API token for this account" }

/-- Mirrors `App::save_accounts` / `Config::save`: the full account list is
written to the config file (modelled by the `config_file` field). -/
def App.save_accounts (app : App σ) : Except String Unit × App σ :=
  (.ok (), { app with config_file := some app.accounts })

def App.finish_add_account (app : App σ) (B : Backend σ) (account : Account) :
    Except String Unit × App σ :=
  let name := account.name
  let app := { app with accounts := app.accounts ++ [account] }
  let app := { app with selected_account := app.accounts.length - 1 }
  let app := { app with selected_zone := 0, mode := .normal }
  match app.save_accounts with
  | (.error e, app) => (.error e, app)
  | (.ok _, app) =>
    match app.refresh_current B with
    | (.error e, app) => (.error e, app)
    | (.ok _, app) => (.ok (), { app with last_message := "Added account " ++ name })

def App.ensure_onboarding_prompt (app : App σ) : App σ :=
  if app.accounts.isEmpty then app.start_add_account else app

def App.current_record (app : App σ) : Option DnsRecord :=
  app.filtered_records[app.selected_record]?

def App.start_record_form (app : App σ) (is_edit : Bool) : App σ :=
  let draft :=
    if is_edit then
      match app.current_record with
      | some rec => RecordDraft.from_record rec
      | none => RecordDraft.default
    else RecordDraft.default
  let target_id := app.current_record.map DnsRecord.id
  { app with
    mode := .recordForm { draft := draft, field_index := 0, is_edit := is_edit
                          target_id := target_id }
    last_message := if is_edit then "Editing DNS record" else "Create DNS record" }

def App.ask_delete_record (app : App σ) : App σ :=
  match app.current_record with
  | some record =>
    { app with mode := .confirmDelete { record_id := record.id, record_name := record.name }
               last_message := "Delete " ++ record.name ++ "?" }
  | none => app

def App.create_record (app : App σ) (B : Backend σ) (record : DnsRecord) :
    Except String Unit × App σ :=
  match app.current_account, app.current_zone with
  | some account, some zone =>
    match B.create_record app.backend account zone record with
    | (.error e, s) => (.error e, { app with backend := s })
    | (.ok created, s) =>
      let app := { app with backend := s
                            last_message := "Created " ++ created.name
                            mode := .normal }
      app.refresh_records B
  | _, _ => (.ok (), app)

def App.update_record (app : App σ) (B : Backend σ) (record : DnsRecord) :
    Except String Unit × App σ :=
  match app.current_account, app.current_zone with
  | some account, some zone =>
    match B.update_record app.backend account zone record with
    | (.error e, s) => (.error e, { app with backend := s })
    | (.ok updated, s) =>
      let app := { app with backend := s
                            last_message := "Updated " ++ updated.name
                            mode := .normal }
      app.refresh_records B
  | _, _ => (.ok (), app)

def App.delete_record (app : App σ) (B : Backend σ) (record_id : String) :
    Except String Unit × App σ :=
  match app.current_account, app.current_zone with
  | some account, some zone =>
    match B.delete_record app.backend account zone record_id with
    | (.error e, s) => (.error e, { app with backend := s })
    | (.ok _, s) =>
      let app := { app with backend := s, last_message := "Record deleted" }
      app.refresh_records B
  | _, _ => (.ok (), app)

/-! ## Key handlers and the event loop -/

/-- Mirrors `handle_normal_key`. -/
def handle_normal_key (B : Backend σ) (code : KeyCode) (app : App σ) :
    Except String Bool × App σ :=
  match code with
  | .char c =>
    if c = 'q' then (.ok true, app)
    else if c = 'r' then
      match app.refresh_current B with
      | (.error e, app) => (.error e, app)
      | (.ok _, app) => (.ok false, app)
    else if c = 'a' then (.ok false, app.start_add_account)
    else if c = '/' then (.ok false, { app with mode := .searching app.record_filter })
    else if c = 'n' then (.ok false, app.start_record_form false)
    else if c = 'e' then (.ok false, app.start_record_form true)
    else if c = 'd' then (.ok false, app.ask_delete_record)
    else (.ok false, app)
  | .backTab =>
    (.ok false, { app with focus :=
      match app.focus with
      | .accounts => .records
      | .zones => .accounts
      | .records => .zones })
  | .tab =>
    (.ok false, { app with focus :=
      match app.focus with
      | .accounts => .zones
      | .zones => .records
      | .records => .accounts })
  | .up =>
    match app.focus with
    | .accounts =>
      match app.previous_account B with
      | (.error e, app) => (.error e, app)
      | (.ok _, app) => (.ok false, app)
    | .zones =>
      match app.previous_zone B with
      | (.error e, app) => (.error e, app)
      | (.ok _, app) => (.ok false, app)
    | .records => (.ok false, app.previous_record)
  | .down =>
    match app.focus with
    | .accounts =>
      match app.next_account B with
      | (.error e, app) => (.error e, app)
      | (.ok _, app) => (.ok false, app)
    | .zones =>
      match app.next_zone B with
      | (.error e, app) => (.error e, app)
      | (.ok _, app) => (.ok false, app)
    | .records => (.ok false, app.next_record)
  | .pageDown => (.ok false, app.next_page)
  | .pageUp => (.ok false, app.previous_page)
  | _ => (.ok false, app)

/-- Mirrors `handle_add_account_key`; note the commit/advance split is on
`field_index < 2`, so Enter already commits from the third field (email). -/
def handle_add_account_key (B : Backend σ) (code : KeyCode) (app : App σ) :
    Except String Bool × App σ :=
  match app.mode with
  | .addingAccount form =>
    match code with
    | .esc => (.ok false, (({ app with mode := .normal } : App σ)).ensure_onboarding_prompt)
    | .enter =>
      if form.field_index < 2 then
        (.ok false, { app with mode := .addingAccount form.next_field })
      else
        match form.build_account with
        | .ok account =>
          match app.finish_add_account B account with
          | (.error e, app) => (.error e, app)
          | (.ok _, app) => (.ok false, app)
        | .error msg => (.ok false, { app with last_message := msg })
    | .tab | .down => (.ok false, { app with mode := .addingAccount form.next_field })
    | .backTab | .up => (.ok false, { app with mode := .addingAccount form.previous_field })
    | .backspace => (.ok false, { app with mode := .addingAccount form.backspace })
    | .char c => (.ok false, { app with mode := .addingAccount (form.insert_char c) })
    | _ => (.ok false, app)
  | _ => (.ok false, app)

/-- Mirrors `handle_record_form_key`; Enter on the last field materializes the
draft with `target_id.unwrap_or("new")` and dispatches create or update. -/
def handle_record_form_key (B : Backend σ) (code : KeyCode) (app : App σ) :
    Except String Bool × App σ :=
  match app.mode with
  | .recordForm form =>
    match code with
    | .esc => (.ok false, { app with mode := .normal })
    | .tab | .down =>
      let form := { form with field_index := min (form.field_index + 1) 4 }
      (.ok false, { app with mode := .recordForm form })
    | .backTab | .up =>
      let form :=
        if 0 < form.field_index then { form with field_index := form.field_index - 1 }
        else form
      (.ok false, { app with mode := .recordForm form })
    | .enter =>
      if form.field_index < 4 then
        let form := { form with field_index := form.field_index + 1 }
        (.ok false, { app with mode := .recordForm form })
      else
        let record_id := form.target_id.getD "new"
        match form.draft.to_record record_id with
        | .ok record =>
          if form.is_edit then
            match app.update_record B record with
            | (.error e, app) => (.error e, app)
            | (.ok _, app) => (.ok false, app)
          else
            match app.create_record B record with
            | (.error e, app) => (.error e, app)
            | (.ok _, app) => (.ok false, app)
        | .error err => (.ok false, { app with last_message := err })
    | .backspace =>
      let draft :=
        match form.field_index with
        | 0 => { form.draft with name := strPop form.draft.name }
        | 1 => { form.draft with record_type := strPop form.draft.record_type }
        | 2 => { form.draft with content := strPop form.draft.content }
        | 3 => { form.draft with ttl := strPop form.draft.ttl }
        | _ => form.draft
      (.ok false, { app with mode := .recordForm { form with draft := draft } })
    | .char c =>
      if c = ' ' ∧ form.field_index = 4 then
        let draft := { form.draft with proxied := !form.draft.proxied }
        (.ok false, { app with mode := .recordForm { form with draft := draft } })
      else
        let draft :=
          match form.field_index with
          | 0 => { form.draft with name := form.draft.name.push c }
          | 1 => { form.draft with record_type := form.draft.record_type.push c }
          | 2 => { form.draft with content := form.draft.content.push c }
          | 3 => { form.draft with ttl := form.draft.ttl.push c }
          | _ => form.draft
        (.ok false, { app with mode := .recordForm { form with draft := draft } })
    | _ => (.ok false, app)
  | _ => (.ok false, app)

/-- Mirrors `handle_confirm_delete_key`; quit is honored from this state, and a
failed delete propagates before the mode returns to Normal. -/
def handle_confirm_delete_key (B : Backend σ) (code : KeyCode) (app : App σ) :
    Except String Bool × App σ :=
  match app.mode with
  | .confirmDelete confirm =>
    match code with
    | .esc => (.ok false, { app with mode := .normal })
    | .char c => if c = 'q' then (.ok true, app) else (.ok false, app)
    | .enter =>
      match app.delete_record B confirm.record_id with
      | (.error e, app) => (.error e, app)
      | (.ok _, app) => (.ok false, { app with mode := .normal })
    | _ => (.ok false, app)
  | _ => (.ok false, app)

/-- Mirrors `handle_search_key`. -/
def handle_search_key (code : KeyCode) (app : App σ) : Except String Bool × App σ :=
  match app.mode with
  | .searching current =>
    match code with
    | .esc => (.ok false, { app with mode := .normal })
    | .enter =>
      (.ok false,
        { app with
          record_filter := current, record_page := 0, selected_record := 0
          mode := .normal })
    | .backspace => (.ok false, { app with mode := .searching (strPop current) })
    | .char c => (.ok false, { app with mode := .searching (current.push c) })
    | _ => (.ok false, app)
  | _ => (.ok false, app)

/-- Mirrors `handle_key` (dispatch on the current modal). -/
def handle_key (B : Backend σ) (code : KeyCode) (app : App σ) :
    Except String Bool × App σ :=
  match app.mode with
  | .normal => handle_normal_key B code app
  | .addingAccount _ => handle_add_account_key B code app
  | .recordForm _ => handle_record_form_key B code app
  | .confirmDelete _ => handle_confirm_delete_key B code app
  | .searching _ => handle_search_key code app

/-- Outcome of one `run_app` loop iteration for a dispatched key press. -/
inductive StepOutcome where
  | cont
  | exitOk
  | exitErr (msg : String)
deriving DecidableEq, Repr

/-- One iteration of the `run_app` loop on a key press: `handle_key` returning
`Ok(true)` exits the loop successfully, and an `Err` propagates out of
`run_app` (the `?` operator), ending the session with that error. -/
def run_app_step (B : Backend σ) (code : KeyCode) (app : App σ) :
    StepOutcome × App σ :=
  match handle_key B code app with
  | (.error e, app) => (.exitErr e, app)
  | (.ok true, app) => (.exitOk, app)
  | (.ok false, app) => (.cont, app)

/-- Repeated dispatch of key presses through `handle_key`, keeping the state. -/
def pressKeys (B : Backend σ) (codes : List KeyCode) (app : App σ) : App σ :=
  codes.foldl (fun a c => (handle_key B c a).2) app

/-! ## Deterministic adapter (`MockBackend`) -/

/-- The `MockBackend` record store: `HashMap<String, Vec<DnsRecord>>` modelled
as an association list keyed by zone id. -/
def MockState : Type := List (String × List DnsRecord)

instance : DecidableEq MockState := by
  unfold MockState; infer_instance

/-- `HashMap::get` on the mock store. -/
def lookupZone : MockState → String → Option (List DnsRecord)
  | [], _ => none
  | (k, v) :: rest, zid => if k = zid then some v else lookupZone rest zid

/-- `HashMap::insert`-like write used to model in-place mutation of an entry
(replaces the entry if the key is present, appends it otherwise). -/
def insertZone : MockState → String → List DnsRecord → MockState
  | [], zid, recs => [(zid, recs)]
  | (k, v) :: rest, zid, recs =>
    if k = zid then (zid, recs) :: rest else (k, v) :: insertZone rest zid recs

/-- `MockBackend::new`. -/
def MockBackend.new : MockState := []

/-- The three synthetic records seeded for a zone on first access. -/
def seedRecords (zone : Zone) : List DnsRecord :=
  [ { id := zone.id ++ "-a", name := "api." ++ zone.name, record_type := "A"
      content := "203.0.113.10", ttl := 300, proxied := true }
  , { id := zone.id ++ "-b", name := "cdn." ++ zone.name, record_type := "CNAME"
      content := "edge.service.net", ttl := 120, proxied := true }
  , { id := zone.id ++ "-c", name := "mail." ++ zone.name, record_type := "MX"
      content := "mail." ++ zone.name, ttl := 3600, proxied := false } ]

/-- Mirrors `MockBackend::ensure_zone` (`entry(..).or_insert_with(seed)`). -/
def ensure_zone (st : MockState) (zone : Zone) : MockState :=
  match lookupZone st zone.id with
  | some _ => st
  | none => insertZone st zone.id (seedRecords zone)

/-- Mirrors `MockBackend::list_zones`: two deterministic zones derived from the
normalized account name. -/
def MockBackend.list_zones (account : Account) : List Zone :=
  let base := strToLower (stripSpaces account.name)
  [ { id := base ++ "-01", name := base ++ ".example.com" }
  , { id := base ++ "-02", name := base ++ ".services.io" } ]

/-- Mirrors `MockBackend::list_records`. -/
def MockBackend.list_records (st : MockState) (zone : Zone) :
    List DnsRecord × MockState :=
  let st := ensure_zone st zone
  ((lookupZone st zone.id).getD [], st)

/-- Mirrors `MockBackend::create_record`: the new id is
`{zoneId}-{currentCount+1}`. -/
def MockBackend.create_record (st : MockState) (zone : Zone) (record : DnsRecord) :
    DnsRecord × MockState :=
  let st := ensure_zone st zone
  let records := (lookupZone st zone.id).getD []
  let new_record := { record with id := zone.id ++ "-" ++ Nat.repr (records.length + 1) }
  (new_record, insertZone st zone.id (records ++ [new_record]))

/-- First-match in-place replacement used by `MockBackend::update_record`. -/
def replaceFirst : List DnsRecord → DnsRecord → List DnsRecord
  | [], _ => []
  | r :: rs, rec => if r.id = rec.id then rec :: rs else r :: replaceFirst rs rec

/-- Mirrors `MockBackend::update_record` (no-op if the id is absent). -/
def MockBackend.update_record (st : MockState) (zone : Zone) (record : DnsRecord) :
    DnsRecord × MockState :=
  let st := ensure_zone st zone
  match lookupZone st zone.id with
  | some records => (record, insertZone st zone.id (replaceFirst records record))
  | none => (record, st)

/-- Mirrors `MockBackend::delete_record` (retain all records with another id;
note this adapter does not seed the zone first). -/
def MockBackend.delete_record (st : MockState) (zone : Zone) (record_id : String) :
    MockState :=
  match lookupZone st zone.id with
  | some records =>
    insertZone st zone.id (records.filter fun r => r.id ≠ record_id)
  | none => st

/-- The deterministic adapter packaged as a Backend Contract instance
(`impl DnsBackend for MockBackend`); it never fails. -/
def mockBackend : Backend MockState where
  list_zones := fun st account => (.ok (MockBackend.list_zones account), st)
  list_records := fun st _ zone =>
    let (records, st) := MockBackend.list_records st zone
    (.ok records, st)
  create_record := fun st _ zone record =>
    let (created, st) := MockBackend.create_record st zone record
    (.ok created, st)
  update_record := fun st _ zone record =>
    let (updated, st) := MockBackend.update_record st zone record
    (.ok updated, st)
  delete_record := fun st _ zone record_id =>
    (.ok (), MockBackend.delete_record st zone record_id)

/-! ## Network adapter: diagnostic body truncation -/

/-- Byte length of a Rust `str`, on the character-list representation. -/
def utf8Len (cs : List Char) : Nat :=
  (cs.map Char.utf8Size).sum

/-- Models the Rust byte slice `&text[..n]`: `some` prefix when byte index `n`
falls on a character boundary, `none` (a panic) otherwise. -/
def takeBytes : Nat → List Char → Option (List Char)
  | 0, _ => some []
  | _ + 1, [] => none
  | n + 1, c :: cs =>
    if c.utf8Size ≤ n + 1 then
      match takeBytes (n + 1 - c.utf8Size) cs with
      | some pre => some (c :: pre)
      | none => none
    else none

/-- Mirrors `truncate_body`: bodies over 200 bytes are cut at byte 200 and
suffixed with an ellipsis. `none` models the slice panic at a non-boundary. -/
def truncate_body (text : List Char) : Option (List Char) :=
  if 200 < utf8Len text then
    match takeBytes 200 text with
    | some pre => some (pre ++ "...".data)
    | none => none
  else some text

/-! ## Operation alphabet for the deterministic adapter -/

/-- One deterministic-adapter operation applied to a fixed zone. -/
inductive MockOp where
  | list
  | create (record : DnsRecord)
  | delete (record_id : String)
deriving DecidableEq, Repr

def MockOp.isDelete : MockOp → Bool
  | .delete _ => true
  | _ => false

def applyMockOp (zone : Zone) (st : MockState) : MockOp → MockState
  | .list => (MockBackend.list_records st zone).2
  | .create record => (MockBackend.create_record st zone record).2
  | .delete record_id => MockBackend.delete_record st zone record_id

def applyMockOps (zone : Zone) (ops : List MockOp) (st : MockState) : MockState :=
  ops.foldl (applyMockOp zone) st

/-- The ids held by the deterministic adapter for one zone. -/
def zoneRecordIds (st : MockState) (zid : String) : List String :=
  ((lookupZone st zid).getD []).map DnsRecord.id

/-- The ids of the three seeded records of a zone. -/
def seedIds (zone : Zone) : List String :=
  [zone.id ++ "-a", zone.id ++ "-b", zone.id ++ "-c"]

/-- The id `MockBackend::create_record` assigns when the zone holds `k - 1`
records (`{zoneId}-{k}`). -/
def mkId (zone : Zone) (k : Nat) : String :=
  zone.id ++ "-" ++ Nat.repr k

/-- The id list of a zone that was seeded and then received `n` creations with
no interleaved delete. -/
def goodIds (zone : Zone) (n : Nat) : List String :=
  seedIds zone ++ (List.range' 4 n).map (mkId zone)

/-! ## Decimal-representation toolkit (for id distinctness) -/

/-- Numeric value of a decimal digit character. -/
def charVal (c : Char) : Nat := c.toNat - 48

/-- Value of a most-significant-first decimal digit string. -/
def decDigits (ds : List Char) : Nat :=
  ds.foldl (fun a c => a * 10 + charVal c) 0

/-! ## The page-index invariant of §3 -/

/-- The §3 invariant: the page index lies in `[0, pageCount)` for the current
filtered view, or is 0 when the view is empty. -/
def page_ok {σ : Type} (app : App σ) : Prop :=
  (app.filtered_records.length = 0 → app.record_page = 0)
  ∧ (app.filtered_records.length ≠ 0 →
      app.record_page < app.record_page_count app.filtered_records.length)

/-! ## Concrete fixtures used by the closed witness and counterexample
theorems -/

def acctW : Account :=
  { name := "demo", api_token := "token", email := none, account_id := none
    auth_mode := .token }

def zoneW : Zone := { id := "demo-01", name := "demo.example.com" }

def recW : DnsRecord :=
  { id := "demo-01-a", name := "api.demo.example.com", record_type := "A"
    content := "203.0.113.10", ttl := 300, proxied := true }

def recsW : List DnsRecord :=
  [ { recW with id := "1", name := "r1.demo" }
  , { recW with id := "2", name := "r2.demo" }
  , { recW with id := "3", name := "r3.demo" }
  , { recW with id := "4", name := "r4.demo" }
  , { recW with id := "5", name := "r5.demo" } ]

/-- A backend whose zone listing always fails with "boom". -/
def failingBackend : Backend Unit where
  list_zones := fun s _ => (.error "boom", s)
  list_records := fun s _ _ => (.ok [], s)
  create_record := fun s _ _ r => (.ok r, s)
  update_record := fun s _ _ r => (.ok r, s)
  delete_record := fun s _ _ _ => (.ok (), s)

/-- A backend that always succeeds with fixed data. -/
def unitBackend : Backend Unit where
  list_zones := fun s _ => (.ok [zoneW], s)
  list_records := fun s _ _ => (.ok [recW], s)
  create_record := fun s _ _ r => (.ok r, s)
  update_record := fun s _ _ r => (.ok r, s)
  delete_record := fun s _ _ _ => (.ok (), s)

/-- A backend that records the record passed to `create_record`. -/
def recordingBackend : Backend (Option DnsRecord) where
  list_zones := fun s _ => (.ok [zoneW], s)
  list_records := fun s _ _ => (.ok [], s)
  create_record := fun _ _ _ r => (.ok r, some r)
  update_record := fun s _ _ r => (.ok r, s)
  delete_record := fun s _ _ _ => (.ok (), s)

def appNormal : App Unit :=
  { config_path := "", backend := (), accounts := [acctW], selected_account := 0
    zones := [zoneW], selected_zone := 0, selected_record := 0, records := [recW]
    focus := .accounts, mode := .normal, record_filter := "", record_page := 0
    record_page_size := 10, last_message := "init", config_file := none }

def appPages : App Unit :=
  { appNormal with records := recsW, record_page_size := 2 }

def appAdding : App Unit :=
  { appNormal with mode := .addingAccount ({ AccountForm.default with field_index := 2 }) }

def formReady : AccountForm :=
  { name := "fresh", api_token := "tok", email := "", account_id := "", field_index := 2 }

def appAddingReady : App Unit :=
  { appNormal with mode := .addingAccount formReady }

def appSearch : App Unit :=
  { appNormal with mode := .searching "cdn", record_page := 3, selected_record := 7 }

def appRecSel : App (Option DnsRecord) :=
  { config_path := "", backend := none, accounts := [acctW], selected_account := 0
    zones := [zoneW], selected_zone := 0, selected_record := 0, records := [recW]
    focus := .records, mode := .normal, record_filter := "", record_page := 0
    record_page_size := 10, last_message := "", config_file := none }

def formW : AccountForm :=
  { name := "n", api_token := "t", email := "", account_id := "id", field_index := 3 }

/-- The record form produced by opening create mode on `appNormal`. -/
def formRec : RecordForm :=
  { draft := RecordDraft.default, field_index := 0, is_edit := false
    target_id := some "demo-01-a" }

def accW : Account :=
  { name := "n", api_token := "t", email := none, account_id := some "id"
    auth_mode := .token }

/-- A record draft handed to the deterministic adapter (its id is ignored and
reassigned by `create_record`). -/
def draftW : DnsRecord :=
  { id := "x", name := "n", record_type := "A", content := "c", ttl := 300
    proxied := false }

/-- A backend failing every operation, each with a distinct message. -/
def allFailBackend : Backend Unit where
  list_zones := fun s _ => (.error "zones down", s)
  list_records := fun s _ _ => (.error "records down", s)
  create_record := fun s _ _ _ => (.error "create down", s)
  update_record := fun s _ _ _ => (.error "update down", s)
  delete_record := fun s _ _ _ => (.error "delete down", s)

def appZonesFocus : App Unit := { appNormal with focus := .zones }

/-- A filled-in create-mode record form with the cursor on the last field. -/
def formCreateDone : RecordForm :=
  { draft := { RecordDraft.default with name := "x" }, field_index := 4
    is_edit := false, target_id := some "demo-01-a" }

def appCreateForm : App Unit :=
  { appNormal with mode := .recordForm formCreateDone }

def appEditForm : App Unit :=
  { appNormal with mode := .recordForm ({ formCreateDone with is_edit := true }) }

def confirmW : ConfirmDelete :=
  { record_id := "demo-01-a", record_name := "api.demo.example.com" }

def appConfirm : App Unit :=
  { appNormal with mode := .confirmDelete confirmW }

/-- The record materialized from `formCreateDone`. -/
def recCreated : DnsRecord :=
  { id := "demo-01-a", name := "x", record_type := "A", content := ""
    ttl := 300, proxied := true }

/-! ## C9: diagnostic body truncation (code bug) -/

/-- C9 (code bug): `truncate_body` is not total. On a 201-byte body whose byte
200 falls inside a two-byte character, the byte slice `&text[..200]` panics
(modelled as `none`); on over-long ASCII bodies the truncation behaves as the
claim describes, and bodies of at most 200 bytes are returned unchanged. -/
theorem C9_truncate_body_panics :
    truncate_body (List.replicate 199 'a' ++ ['é']) = none
    ∧ 200 < utf8Len (List.replicate 199 'a' ++ ['é'])
    ∧ truncate_body (List.replicate 201 'a')
        = some (List.replicate 200 'a' ++ "...".data)
    ∧ truncate_body (List.replicate 200 'a') = some (List.replicate 200 'a') := by
  refine ⟨?_, ?_, ?_, ?_⟩ <;> decide

/-! ## C1: failing backend calls and session termination -/

theorem handle_search_key_no_quit {σ : Type} (code : KeyCode) (app : App σ) :
    (handle_search_key code app).1 ≠ .ok true := by
  unfold handle_search_key
  rcases hm : app.mode <;> rcases code <;> simp [hm]

theorem handle_add_account_key_no_quit {σ : Type} (B : Backend σ) (code : KeyCode)
    (app : App σ) : (handle_add_account_key B code app).1 ≠ .ok true := by
  unfold handle_add_account_key
  rcases hm : app.mode <;> simp [hm]
  rcases code <;> simp
  · split
    · simp
    · split
      · rcases hfin : App.finish_add_account app B _ with ⟨r, a⟩
        rcases r <;> simp
      · simp

theorem handle_record_form_key_no_quit {σ : Type} (B : Backend σ) (code : KeyCode)
    (app : App σ) : (handle_record_form_key B code app).1 ≠ .ok true := by
  unfold handle_record_form_key
  rcases hm : app.mode with _ | f | form | cd | s <;> simp [hm]
  cases code
  case enter =>
    by_cases hf : form.field_index < 4
    · simp [hf]
    · simp only [hf, if_false]
      rcases hr : RecordDraft.to_record form.draft (form.target_id.getD "new") with e | rec
      · simp
      · by_cases he : form.is_edit
        · rcases hop : App.update_record app B rec with ⟨r, a⟩
          rcases r <;> simp [he, hop]
        · rcases hop : App.create_record app B rec with ⟨r, a⟩
          rcases r <;> simp [he, hop]
  case char c =>
    by_cases hc : c = ' ' ∧ form.field_index = 4
    · simp [hc]
    · simp [hc]
  all_goals simp

theorem handle_confirm_delete_key_quit {σ : Type} (B : Backend σ) (code : KeyCode)
    (app : App σ) (h : (handle_confirm_delete_key B code app).1 = .ok true) :
    code = .char 'q' := by
  unfold handle_confirm_delete_key at h
  rcases hm : app.mode with _ | f | rf | cd | s <;> rw [hm] at h <;> try simp at h
  cases code
  case char c =>
    by_cases hq : c = 'q'
    · simp [hq]
    · simp [hq] at h
  case enter =>
    exfalso
    rcases hop : App.delete_record app B cd.record_id with ⟨r, a⟩
    rcases r <;> simp [hop] at h
  all_goals simp at h

theorem handle_normal_key_quit {σ : Type} (B : Backend σ) (code : KeyCode)
    (app : App σ) (h : (handle_normal_key B code app).1 = .ok true) :
    code = .char 'q' := by
  unfold handle_normal_key at h
  cases code
  case char c =>
    by_cases hq : c = 'q'
    · simp [hq]
    · exfalso
      by_cases hr : c = 'r'
      · rcases hop : App.refresh_current app B with ⟨r, a⟩
        rcases r <;> simp [hq, hr, hop] at h
      · simp [hq, hr, apply_ite (fun x : Except String Bool × App σ => x.1)] at h
  case up =>
    exfalso
    rcases hf : app.focus
    · rcases hop : App.previous_account app B with ⟨r, a⟩
      rcases r <;> simp [hf, hop] at h
    · rcases hop : App.previous_zone app B with ⟨r, a⟩
      rcases r <;> simp [hf, hop] at h
    · simp [hf] at h
  case down =>
    exfalso
    rcases hf : app.focus
    · rcases hop : App.next_account app B with ⟨r, a⟩
      rcases r <;> simp [hf, hop] at h
    · rcases hop : App.next_zone app B with ⟨r, a⟩
      rcases r <;> simp [hf, hop] at h
    · simp [hf] at h
  all_goals simp at h

/-- C1 (counterexample): a failing zone-list refresh does not surface its
message as the last-status text and does not leave the session running: the
error propagates out of `handle_key`, so `run_app` exits with it. -/
theorem C1_counterexample :
    run_app_step failingBackend (.char 'r') appNormal = (.exitErr "boom", appNormal)
    ∧ appNormal.last_message ≠ "boom" := by
  refine ⟨?_, ?_⟩ <;> decide

/-- C1 (amended): a failing Backend Contract call (zone listing, record
listing, create, update, or delete) leaves the zone and record lists and the
record selection unchanged, and its message is not surfaced as last-status
text: the error propagates out of `handle_key` and ends the `run_app` loop
with that error. The loop exits successfully only on the explicit quit key,
and only from Normal or ConfirmDelete mode. -/
theorem C1_failure_and_quit {σ : Type} (B : Backend σ) (app : App σ) :
    (∀ acct m s1, app.mode = .normal → app.current_account = some acct →
      B.list_zones app.backend acct = (.error m, s1) →
      run_app_step B (.char 'r') app = (.exitErr m, { app with backend := s1 }))
    ∧ (∀ acct zone m s1, app.mode = .normal → app.focus = .zones →
      app.zones ≠ [] → app.current_account = some acct →
      app.zones[(app.selected_zone + 1) % app.zones.length]? = some zone →
      B.list_records app.backend acct zone = (.error m, s1) →
      run_app_step B .down app
        = (.exitErr m,
           { app with
             selected_zone := (app.selected_zone + 1) % app.zones.length
             backend := s1 }))
    ∧ (∀ form rec acct zone m s1, app.mode = .recordForm form →
      ¬ form.field_index < 4 → form.is_edit = false →
      form.draft.to_record (form.target_id.getD "new") = .ok rec →
      app.current_account = some acct → app.current_zone = some zone →
      B.create_record app.backend acct zone rec = (.error m, s1) →
      run_app_step B .enter app = (.exitErr m, { app with backend := s1 }))
    ∧ (∀ form rec acct zone m s1, app.mode = .recordForm form →
      ¬ form.field_index < 4 → form.is_edit = true →
      form.draft.to_record (form.target_id.getD "new") = .ok rec →
      app.current_account = some acct → app.current_zone = some zone →
      B.update_record app.backend acct zone rec = (.error m, s1) →
      run_app_step B .enter app = (.exitErr m, { app with backend := s1 }))
    ∧ (∀ c acct zone m s1, app.mode = .confirmDelete c →
      app.current_account = some acct → app.current_zone = some zone →
      B.delete_record app.backend acct zone c.record_id = (.error m, s1) →
      run_app_step B .enter app = (.exitErr m, { app with backend := s1 }))
    ∧ (app.mode = .normal → run_app_step B (.char 'q') app = (.exitOk, app))
    ∧ (∀ c, app.mode = .confirmDelete c →
      run_app_step B (.char 'q') app = (.exitOk, app))
    ∧ (∀ code app1, run_app_step B code app = (.exitOk, app1) →
      code = .char 'q'
      ∧ (app.mode = .normal ∨ ∃ c, app.mode = .confirmDelete c)) := by
  refine ⟨?_, ?_, ?_, ?_, ?_, ?_, ?_, ?_⟩
  · intro acct m s1 hm hacc hfail
    simp [run_app_step, handle_key, hm, handle_normal_key, App.refresh_current,
      App.refresh_zones, hacc, hfail]
  · intro acct zone m s1 hm hfoc hz hacc hzone hfail
    have hne : app.zones.isEmpty = false := by
      rcases hzs : app.zones with _ | ⟨a, b⟩
      · exact absurd hzs hz
      · rfl
    have hacc2 : app.accounts[app.selected_account]? = some acct := hacc
    simp [run_app_step, handle_key, hm, handle_normal_key, hfoc, App.next_zone,
      hne, App.refresh_records, App.current_account, App.current_zone, hacc2,
      hzone, hfail]
  · intro form rec acct zone m s1 hm hf he hto hacc hzone hfail
    simp [run_app_step, handle_key, hm, handle_record_form_key, hf, hto, he,
      App.create_record, hacc, hzone, hfail]
  · intro form rec acct zone m s1 hm hf he hto hacc hzone hfail
    simp [run_app_step, handle_key, hm, handle_record_form_key, hf, hto, he,
      App.update_record, hacc, hzone, hfail]
  · intro c acct zone m s1 hm hacc hzone hfail
    simp [run_app_step, handle_key, hm, handle_confirm_delete_key,
      App.delete_record, hacc, hzone, hfail]
  · intro hm
    simp [run_app_step, handle_key, hm, handle_normal_key]
  · intro c hm
    simp [run_app_step, handle_key, hm, handle_confirm_delete_key]
  · intro code app1 h
    have hk : (handle_key B code app).1 = .ok true := by
      unfold run_app_step at h
      rcases hh : handle_key B code app with ⟨r, a⟩
      rw [hh] at h
      rcases r with e | b
      · simp at h
      · rcases b <;> simp at h
        simp
    unfold handle_key at hk
    rcases hm : app.mode <;> rw [hm] at hk
    · exact ⟨handle_normal_key_quit B code app hk, Or.inl rfl⟩
    · exact absurd hk (handle_add_account_key_no_quit B code app)
    · exact absurd hk (handle_record_form_key_no_quit B code app)
    · rename_i c
      exact ⟨handle_confirm_delete_key_quit B code app hk, Or.inr ⟨c, rfl⟩⟩
    · exact absurd hk (handle_search_key_no_quit code app)

/-- Closed witness for C1: each of the five failing Backend Contract calls at
a concrete state with an all-failing backend, plus quit from Normal and from
ConfirmDelete. -/
theorem C1_witness :
    run_app_step allFailBackend (.char 'r') appNormal
      = (.exitErr "zones down", { appNormal with backend := () })
    ∧ run_app_step allFailBackend .down appZonesFocus
      = (.exitErr "records down",
         { appZonesFocus with
           selected_zone :=
             (appZonesFocus.selected_zone + 1) % appZonesFocus.zones.length
           backend := () })
    ∧ run_app_step allFailBackend .enter appCreateForm
      = (.exitErr "create down", { appCreateForm with backend := () })
    ∧ run_app_step allFailBackend .enter appEditForm
      = (.exitErr "update down", { appEditForm with backend := () })
    ∧ run_app_step allFailBackend .enter appConfirm
      = (.exitErr "delete down", { appConfirm with backend := () })
    ∧ run_app_step allFailBackend (.char 'q') appNormal = (.exitOk, appNormal)
    ∧ run_app_step allFailBackend (.char 'q') appConfirm = (.exitOk, appConfirm) :=
  ⟨(C1_failure_and_quit allFailBackend appNormal).1 acctW "zones down" ()
      rfl rfl rfl,
   (C1_failure_and_quit allFailBackend appZonesFocus).2.1 acctW zoneW
      "records down" () rfl rfl (by decide) rfl rfl rfl,
   (C1_failure_and_quit allFailBackend appCreateForm).2.2.1 formCreateDone
      recCreated acctW zoneW "create down" () rfl (by decide) rfl (by rfl)
      rfl rfl rfl,
   (C1_failure_and_quit allFailBackend appEditForm).2.2.2.1
      ({ formCreateDone with is_edit := true }) recCreated acctW zoneW
      "update down" () rfl (by decide) rfl (by rfl) rfl rfl rfl,
   (C1_failure_and_quit allFailBackend appConfirm).2.2.2.2.1 confirmW acctW
      zoneW "delete down" () rfl rfl rfl rfl,
   (C1_failure_and_quit allFailBackend appNormal).2.2.2.2.2.1 rfl,
   (C1_failure_and_quit allFailBackend appConfirm).2.2.2.2.2.2.1 confirmW rfl⟩

/-! ## C3: Enter in the AddingAccount modal -/

/-- C3 (counterexample): with the cursor on field 2 (email, before the last
field 3), Enter does not advance the cursor: it attempts the commit and, with
name and token blank, reports the validation error and stays on field 2. -/
theorem C3_counterexample :
    handle_add_account_key unitBackend .enter appAdding
      = (.ok false,
         { appAdding with last_message := "Name and API token are required" })
    ∧ appAdding.mode
        = .addingAccount ({ AccountForm.default with field_index := 2 })
    ∧ (2 : Nat) < 3 := by
  refine ⟨?_, ?_, ?_⟩ <;> decide

/-- C3 (amended): Enter advances the cursor only from the first two fields
(name, token); from field 2 on it attempts the commit: with name or token
blank after trim it reports the validation error and stays in AddingAccount
with no account appended, and with both present it appends the built account,
selects it, persists the account list, refreshes zones and records through the
backend, and returns to Normal. -/
theorem C3_add_account_enter {σ : Type} (B : Backend σ) (app : App σ)
    (form : AccountForm) (hm : app.mode = .addingAccount form) :
    (form.field_index < 2 →
      handle_add_account_key B .enter app
        = (.ok false, { app with mode := .addingAccount form.next_field }))
    ∧ (2 ≤ form.field_index → form.is_ready = false →
      handle_add_account_key B .enter app
        = (.ok false,
           { app with last_message := "Name and API token are required" }))
    ∧ (∀ (acc : Account) (z0 : Zone) (ztail : List Zone) (rs : List DnsRecord)
         (s1 s2 : σ),
        2 ≤ form.field_index →
        form.build_account = .ok acc →
        B.list_zones app.backend acc = (.ok (z0 :: ztail), s1) →
        B.list_records s1 acc z0 = (.ok rs, s2) →
        handle_add_account_key B .enter app
          = (.ok false,
             { app with
               accounts := app.accounts ++ [acc]
               selected_account := app.accounts.length
               selected_zone := 0
               mode := .normal
               config_file := some (app.accounts ++ [acc])
               backend := s2
               zones := z0 :: ztail
               records := rs
               selected_record := 0
               record_page := 0
               last_message := "Added account " ++ acc.name })) := by
  refine ⟨?_, ?_, ?_⟩
  · intro hlt
    simp [handle_add_account_key, hm, hlt]
  · intro hge hnr
    have hlt : ¬ form.field_index < 2 := by omega
    have hb : form.build_account = .error "Name and API token are required" := by
      unfold AccountForm.build_account
      simp [hnr]
    simp [handle_add_account_key, hm, hlt, hb]
  · intro acc z0 ztail rs s1 s2 hge hb hlz hlr
    have hlt : ¬ form.field_index < 2 := by omega
    simp only [handle_add_account_key, hm, hlt, if_false, hb]
    unfold App.finish_add_account App.save_accounts App.refresh_current
      App.refresh_zones App.refresh_records App.current_account App.current_zone
    simp [List.getElem?_concat_length, hlz, hlr]

/-- Closed witness for C3 at a concrete ready form (cursor on field 2). -/
theorem C3_witness :
    handle_add_account_key unitBackend .enter appAddingReady
      = (.ok false,
         { appAddingReady with
           accounts := appAddingReady.accounts
             ++ [{ name := "fresh", api_token := "tok", email := none
                   account_id := none, auth_mode := .token }]
           selected_account := appAddingReady.accounts.length
           selected_zone := 0
           mode := .normal
           config_file := some (appAddingReady.accounts
             ++ [{ name := "fresh", api_token := "tok", email := none
                   account_id := none, auth_mode := .token }])
           backend := ()
           zones := [zoneW]
           records := [recW]
           selected_record := 0
           record_page := 0
           last_message := "Added account fresh" }) := by
  have h := (C3_add_account_enter unitBackend appAddingReady formReady rfl).2.2
    { name := "fresh", api_token := "tok", email := none
      account_id := none, auth_mode := .token }
    zoneW [] [recW] () () (by decide) (by rfl) (by rfl) (by rfl)
  simpa using h

/-! ## C2: record-id distinctness in the deterministic adapter -/

theorem charVal_digitChar (m : Nat) (h : m < 10) : charVal (Nat.digitChar m) = m := by
  interval_cases m <;> decide

theorem isDigit_digitChar (m : Nat) (h : m < 10) :
    (Nat.digitChar m).isDigit = true := by
  interval_cases m <;> decide

theorem toDigitsCore_shift (f : Nat) : ∀ (n : Nat) (ds : List Char),
    Nat.toDigitsCore 10 f n ds = Nat.toDigitsCore 10 f n [] ++ ds := by
  induction f with
  | zero =>
    intro n ds
    simp [Nat.toDigitsCore]
  | succ f ih =>
    intro n ds
    simp only [Nat.toDigitsCore]
    by_cases h : n / 10 = 0
    · simp [h]
    · simp only [h, if_false]
      rw [ih (n / 10) (Nat.digitChar (n % 10) :: ds),
        ih (n / 10) [Nat.digitChar (n % 10)]]
      simp

theorem decDigits_append (ds : List Char) (c : Char) :
    decDigits (ds ++ [c]) = decDigits ds * 10 + charVal c := by
  simp [decDigits, List.foldl_append]

theorem decDigits_toDigitsCore (f : Nat) : ∀ n : Nat, n < f →
    decDigits (Nat.toDigitsCore 10 f n []) = n := by
  induction f with
  | zero =>
    intro n h
    omega
  | succ f ih =>
    intro n h
    simp only [Nat.toDigitsCore]
    by_cases h10 : n / 10 = 0
    · simp only [h10, if_true]
      have hn : n < 10 := by omega
      have hmod : n % 10 = n := Nat.mod_eq_of_lt hn
      simp [decDigits, hmod, charVal_digitChar n hn]
    · simp only [h10, if_false]
      rw [toDigitsCore_shift, decDigits_append]
      have hlt : n / 10 < f := by omega
      rw [ih (n / 10) hlt, charVal_digitChar (n % 10) (by omega)]
      omega

theorem Nat_repr_inj {m n : Nat} (h : Nat.repr m = Nat.repr n) : m = n := by
  have hd : Nat.toDigitsCore 10 (m + 1) m [] = Nat.toDigitsCore 10 (n + 1) n [] :=
    congrArg String.data h
  have hm := decDigits_toDigitsCore (m + 1) m (Nat.lt_succ_self m)
  have hn := decDigits_toDigitsCore (n + 1) n (Nat.lt_succ_self n)
  rw [← hm, ← hn, hd]

theorem mem_toDigitsCore_digit (f : Nat) : ∀ (n : Nat) (ds : List Char) (c : Char),
    c ∈ Nat.toDigitsCore 10 f n ds → c.isDigit = true ∨ c ∈ ds := by
  induction f with
  | zero =>
    intro n ds c hc
    right
    simpa [Nat.toDigitsCore] using hc
  | succ f ih =>
    intro n ds c hc
    simp only [Nat.toDigitsCore] at hc
    by_cases h10 : n / 10 = 0
    · rw [if_pos h10] at hc
      rcases List.mem_cons.1 hc with hc | hc
      · subst hc
        exact Or.inl (isDigit_digitChar _ (Nat.mod_lt _ (by omega)))
      · exact Or.inr hc
    · rw [if_neg h10] at hc
      rcases ih (n / 10) (Nat.digitChar (n % 10) :: ds) c hc with hd | hm
      · exact Or.inl hd
      · rcases List.mem_cons.1 hm with hm | hm
        · subst hm
          exact Or.inl (isDigit_digitChar _ (Nat.mod_lt _ (by omega)))
        · exact Or.inr hm

theorem repr_chars_digit (k : Nat) (c : Char) (h : c ∈ (Nat.repr k).data) :
    c.isDigit = true := by
  have h' : c ∈ Nat.toDigitsCore 10 (k + 1) k [] := h
  rcases mem_toDigitsCore_digit (k + 1) k [] c h' with hd | hm
  · exact hd
  · simp at hm

theorem string_append_left_cancel {s t u : String} (h : s ++ t = s ++ u) : t = u := by
  apply String.ext
  have hd := congrArg String.data h
  simp only [String.data_append] at hd
  exact List.append_cancel_left hd

theorem append_ne_of_ne {s t u : String} (h : t ≠ u) : s ++ t ≠ s ++ u :=
  fun hx => h (string_append_left_cancel hx)

theorem mkId_inj (z : Zone) : Function.Injective (mkId z) := by
  intro i j h
  unfold mkId at h
  rw [String.append_assoc, String.append_assoc] at h
  exact Nat_repr_inj (string_append_left_cancel (string_append_left_cancel h))

theorem repr_ne_single_letter (k : Nat) (c : Char) (hc : c.isDigit = false) :
    Nat.repr k ≠ String.singleton c := by
  intro h
  have hmem : c ∈ (Nat.repr k).data := by
    rw [h]
    exact List.mem_singleton_self c
  rw [repr_chars_digit k c hmem] at hc
  cases hc

theorem mkId_ne_letter_suffix (z : Zone) (k : Nat) (c : Char)
    (hc : c.isDigit = false) : mkId z k ≠ z.id ++ ("-" ++ String.singleton c) := by
  intro h
  unfold mkId at h
  rw [String.append_assoc] at h
  exact repr_ne_single_letter k c hc
    (string_append_left_cancel (string_append_left_cancel h))

theorem goodIds_nodup (z : Zone) (n : Nat) : (goodIds z n).Nodup := by
  unfold goodIds
  rw [List.nodup_append]
  refine ⟨?_, ?_, ?_⟩
  · unfold seedIds
    have hab : z.id ++ "-a" ≠ z.id ++ "-b" := append_ne_of_ne (by decide)
    have hac : z.id ++ "-a" ≠ z.id ++ "-c" := append_ne_of_ne (by decide)
    have hbc : z.id ++ "-b" ≠ z.id ++ "-c" := append_ne_of_ne (by decide)
    simp [List.nodup_cons, hab, hac, hbc]
  · exact List.Nodup.map (mkId_inj z) (List.nodup_range' 4 n)
  · intro a ha hb
    rcases List.mem_map.1 hb with ⟨k, hk, hka⟩
    unfold seedIds at ha
    simp only [List.mem_cons, List.not_mem_nil, or_false] at ha
    rcases ha with ha | ha | ha
    · exact mkId_ne_letter_suffix z k 'a' (by decide)
        (by rw [hka, ha]; exact congrArg (fun s => z.id ++ s) (by decide))
    · exact mkId_ne_letter_suffix z k 'b' (by decide)
        (by rw [hka, ha]; exact congrArg (fun s => z.id ++ s) (by decide))
    · exact mkId_ne_letter_suffix z k 'c' (by decide)
        (by rw [hka, ha]; exact congrArg (fun s => z.id ++ s) (by decide))

theorem goodIds_succ (z : Zone) (n : Nat) :
    goodIds z (n + 1) = goodIds z n ++ [mkId z (4 + n)] := by
  unfold goodIds
  rw [List.range'_concat, List.map_append, List.append_assoc]
  simp

theorem lookup_insertZone_self (st : MockState) (zid : String)
    (recs : List DnsRecord) : lookupZone (insertZone st zid recs) zid = some recs := by
  induction st with
  | nil => simp [insertZone, lookupZone]
  | cons kv rest ih =>
    obtain ⟨k, v⟩ := kv
    by_cases h : k = zid
    · simp [insertZone, h, lookupZone]
    · simp [insertZone, h, lookupZone, ih]

/-- The creates-only reachability invariant of the deterministic adapter for
one zone: the zone is either untouched or holds exactly the seeded records
followed by the `n` created ones, with the `goodIds` id list. -/
def mockInv (z : Zone) (st : MockState) : Prop :=
  lookupZone st z.id = none
  ∨ ∃ n recs, lookupZone st z.id = some recs
      ∧ recs.map DnsRecord.id = goodIds z n

theorem mockInv_ensure (z : Zone) (st : MockState) (h : mockInv z st) :
    ∃ n recs, lookupZone (ensure_zone st z) z.id = some recs
      ∧ recs.map DnsRecord.id = goodIds z n := by
  rcases h with h | ⟨n, recs, hl, hn⟩
  · refine ⟨0, seedRecords z, ?_, ?_⟩
    · unfold ensure_zone
      rw [h]
      exact lookup_insertZone_self st z.id (seedRecords z)
    · simp [seedRecords, goodIds, seedIds]
  · refine ⟨n, recs, ?_, hn⟩
    unfold ensure_zone
    rw [hl]
    exact hl

theorem mockInv_list (z : Zone) (st : MockState) (h : mockInv z st) :
    mockInv z (MockBackend.list_records st z).2 := by
  obtain ⟨n, recs, hl, hn⟩ := mockInv_ensure z st h
  exact Or.inr ⟨n, recs, hl, hn⟩

theorem mockInv_create (z : Zone) (st : MockState) (record : DnsRecord)
    (h : mockInv z st) : mockInv z (MockBackend.create_record st z record).2 := by
  obtain ⟨n, recs, hl, hn⟩ := mockInv_ensure z st h
  have hlen : recs.length = 3 + n := by
    have hml := congrArg List.length hn
    simp [goodIds, seedIds] at hml
    omega
  right
  refine ⟨n + 1, recs ++ [{ record with
    id := z.id ++ "-" ++ Nat.repr (recs.length + 1) }], ?_, ?_⟩
  · simp only [MockBackend.create_record, hl, Option.getD_some]
    exact lookup_insertZone_self _ _ _
  · have hplus : recs.length + 1 = 4 + n := by omega
    rw [List.map_append, hn, goodIds_succ]
    simp [mkId, hplus]

theorem mockInv_apply_no_delete (z : Zone) (st : MockState) (op : MockOp)
    (hop : op.isDelete = false) (h : mockInv z st) :
    mockInv z (applyMockOp z st op) := by
  cases op
  · exact mockInv_list z st h
  · exact mockInv_create z st _ h
  · simp [MockOp.isDelete] at hop

theorem mockInv_applyOps (z : Zone) (ops : List MockOp) :
    ∀ st : MockState, (∀ op ∈ ops, op.isDelete = false) → mockInv z st →
      mockInv z (applyMockOps z ops st) := by
  induction ops with
  | nil =>
    intro st _ h
    simpa [applyMockOps] using h
  | cons op rest ih =>
    intro st hops h
    simp only [applyMockOps, List.foldl_cons]
    exact ih _ (fun o ho => hops o (List.mem_cons_of_mem _ ho))
      (mockInv_apply_no_delete z st op (hops op (List.mem_cons_self _ _)) h)

/-- C2 (counterexample): applying create, delete (of the seeded record
`demo-01-a`), create to one zone of the deterministic adapter leaves two
records sharing the id `demo-01-4`. -/
theorem C2_counterexample :
    zoneRecordIds
        (applyMockOps zoneW
          [.create draftW, .delete "demo-01-a", .create draftW] MockBackend.new)
        zoneW.id
      = ["demo-01-b", "demo-01-c", "demo-01-4", "demo-01-4"]
    ∧ ¬ (zoneRecordIds
        (applyMockOps zoneW
          [.create draftW, .delete "demo-01-a", .create draftW] MockBackend.new)
        zoneW.id).Nodup := by
  refine ⟨?_, ?_⟩ <;> decide

/-- C2 (amended): for every sequence of deterministic-adapter operations on
one zone that contains no delete, the record ids held for that zone remain
pairwise distinct; interleaving a delete before a create can duplicate an id. -/
theorem C2_no_delete_ids_distinct (z : Zone) (ops : List MockOp)
    (hops : ∀ op ∈ ops, op.isDelete = false) :
    (zoneRecordIds (applyMockOps z ops MockBackend.new) z.id).Nodup := by
  have h := mockInv_applyOps z ops MockBackend.new hops (Or.inl rfl)
  rcases h with h | ⟨n, recs, hl, hn⟩
  · simp [zoneRecordIds, h]
  · unfold zoneRecordIds
    rw [hl, Option.getD_some, hn]
    exact goodIds_nodup z n

/-- Closed witness for C2 on a concrete delete-free operation sequence. -/
theorem C2_witness :
    (zoneRecordIds
        (applyMockOps zoneW [.list, .create draftW, .create draftW] MockBackend.new)
        zoneW.id).Nodup :=
  C2_no_delete_ids_distinct zoneW [.list, .create draftW, .create draftW] (by decide)

/-! ## C4: pagination partitions the filtered view -/

theorem page_size_pos {σ : Type} (app : App σ) : 0 < app.page_size :=
  Nat.lt_of_lt_of_le Nat.one_pos (Nat.le_max_right _ _)

theorem le_divCeil_mul (a b : Nat) (hb : 0 < b) : a ≤ divCeil a b * b := by
  unfold divCeil
  have h := Nat.div_add_mod (a + b - 1) b
  have hm := Nat.mod_lt (a + b - 1) hb
  rw [Nat.mul_comm] at h
  set t := (a + b - 1) / b * b with hts
  omega

theorem divCeil_pred_mul_lt (a b : Nat) (hb : 0 < b) (ha : 0 < a) :
    (divCeil a b - 1) * b < a := by
  unfold divCeil
  have h := Nat.div_add_mod (a + b - 1) b
  have hm := Nat.mod_lt (a + b - 1) hb
  rw [Nat.mul_comm] at h
  rw [Nat.sub_mul]
  set t := (a + b - 1) / b * b with hts
  omega

theorem record_page_count_pos {σ : Type} (app : App σ) (total : Nat)
    (h : 0 < total) : 0 < app.record_page_count total := by
  have hps := page_size_pos app
  have h0 : ¬ total = 0 := by omega
  simp only [App.record_page_count, h0, if_false, divCeil]
  exact (Nat.one_le_div_iff hps).2 (by omega)

theorem filtered_set_page {σ : Type} (app : App σ) (p : Nat) :
    (({ app with record_page := p } : App σ)).filtered_records
      = app.filtered_records := rfl

theorem page_size_set_page {σ : Type} (app : App σ) (p : Nat) :
    (({ app with record_page := p } : App σ)).page_size = app.page_size := rfl

theorem sum_min_telescope (s N : Nat) (m : Nat) :
    (Finset.range m).sum (fun p => min ((p + 1) * s) N - min (p * s) N)
      = min (m * s) N := by
  induction m with
  | zero => simp
  | succ m ih =>
    rw [Finset.sum_range_succ, ih]
    have hab : m * s + s = (m + 1) * s := (Nat.succ_mul m s).symm
    set a := m * s
    set b := (m + 1) * s
    omega

/-- C4: for the current page size (always ≥ 1) and filtered count N, the page
count is 0 when N is 0 and is otherwise the exact ceiling of N divided by the
page size (characterized by the two bounds); every valid page index yields a
defined page slice of length at most the page size; and the slice lengths over
all valid pages sum to N. -/
theorem C4_pagination_partition {σ : Type} (app : App σ) :
    (app.filtered_records.length = 0 →
      app.record_page_count app.filtered_records.length = 0)
    ∧ app.filtered_records.length
        ≤ app.record_page_count app.filtered_records.length * app.page_size
    ∧ (0 < app.filtered_records.length →
        (app.record_page_count app.filtered_records.length - 1) * app.page_size
          < app.filtered_records.length)
    ∧ (∀ p, p < app.record_page_count app.filtered_records.length →
        ∃ slice,
          (({ app with record_page := p } : App σ)).paged_records = some slice
          ∧ slice.length ≤ app.page_size)
    ∧ (Finset.range (app.record_page_count app.filtered_records.length)).sum
        (fun p =>
          ((({ app with record_page := p } : App σ)).paged_records.getD []).length)
      = app.filtered_records.length := by
  have hps := page_size_pos app
  by_cases hN : app.filtered_records.length = 0
  · refine ⟨fun _ => ?_, ?_, fun hx => absurd hx (by omega), ?_, ?_⟩
    · simp [App.record_page_count, hN]
    · simp [App.record_page_count, hN]
    · intro p hp
      rw [hN] at hp
      simp [App.record_page_count] at hp
    · simp [App.record_page_count, hN]
  · have hpos : 0 < app.filtered_records.length := Nat.pos_of_ne_zero hN
    have hcount : app.record_page_count app.filtered_records.length
        = divCeil app.filtered_records.length app.page_size := by
      simp [App.record_page_count, hN]
    have hle := le_divCeil_mul app.filtered_records.length app.page_size hps
    have hlt := divCeil_pred_mul_lt app.filtered_records.length app.page_size hps hpos
    have hstart : ∀ p, p < app.record_page_count app.filtered_records.length →
        p * app.page_size < app.filtered_records.length := by
      intro p hp
      have h1 : p ≤ app.record_page_count app.filtered_records.length - 1 := by omega
      have h2 : p * app.page_size
          ≤ (app.record_page_count app.filtered_records.length - 1) * app.page_size :=
        Nat.mul_le_mul_right _ h1
      rw [hcount] at h2
      omega
    have hne : app.filtered_records.isEmpty = false := by
      rcases hl : app.filtered_records with _ | ⟨x, xs⟩
      · rw [hl] at hN
        simp at hN
      · rfl
    have hslice : ∀ p, p < app.record_page_count app.filtered_records.length →
        (({ app with record_page := p } : App σ)).paged_records
          = some ((app.filtered_records.drop (p * app.page_size)).take
              (min (p * app.page_size + app.page_size) app.filtered_records.length
                - p * app.page_size)) := by
      intro p hp
      have hs := hstart p hp
      unfold App.paged_records
      simp only [filtered_set_page, page_size_set_page, hne, Bool.false_eq_true,
        if_false]
      rw [if_pos (Nat.le_of_lt hs)]
    refine ⟨fun hx => absurd hx (by omega), by rw [hcount]; exact hle,
      fun _ => by rw [hcount]; exact hlt, ?_, ?_⟩
    · intro p hp
      refine ⟨_, hslice p hp, ?_⟩
      have hs := hstart p hp
      simp only [List.length_take, List.length_drop]
      set a := p * app.page_size
      omega
    · have hterm : ∀ p ∈ Finset.range (app.record_page_count
          app.filtered_records.length),
          ((({ app with record_page := p } : App σ)).paged_records.getD []).length
            = min ((p + 1) * app.page_size) app.filtered_records.length
              - min (p * app.page_size) app.filtered_records.length := by
        intro p hp
        rw [Finset.mem_range] at hp
        rw [hslice p hp]
        have hs := hstart p hp
        have hsucc : (p + 1) * app.page_size = p * app.page_size + app.page_size :=
          Nat.succ_mul p _
        simp only [Option.getD_some, List.length_take, List.length_drop]
        set a := p * app.page_size
        set b := (p + 1) * app.page_size
        omega
      rw [Finset.sum_congr rfl hterm, sum_min_telescope]
      rw [hcount]
      set t := divCeil app.filtered_records.length app.page_size * app.page_size
        with hts
      omega

/-- Closed witness for C4 at a concrete app (5 records, page size 2), also
discharging the inner valid-page and nonempty-view hypotheses. -/
theorem C4_witness :
    (0 < appPages.filtered_records.length
      ∧ (appPages.record_page_count appPages.filtered_records.length - 1)
          * appPages.page_size < appPages.filtered_records.length)
    ∧ ((1 : Nat) < appPages.record_page_count appPages.filtered_records.length
      ∧ ∃ slice,
          (({ appPages with record_page := 1 } : App Unit)).paged_records
            = some slice
          ∧ slice.length ≤ appPages.page_size) :=
  ⟨⟨by decide, (C4_pagination_partition appPages).2.2.1 (by decide)⟩,
   ⟨by decide, (C4_pagination_partition appPages).2.2.2.1 1 (by decide)⟩⟩

/-! ## C5: the page index invariant -/

/-- A state whose page index is 0 always satisfies the invariant. -/
theorem page_ok_zero {σ : Type} (b : App σ) (hp : b.record_page = 0) :
    page_ok b := by
  unfold page_ok
  refine ⟨fun _ => hp, fun hN => ?_⟩
  rw [hp]
  exact record_page_count_pos _ _ (Nat.pos_of_ne_zero hN)

theorem ensure_record_visible_page_ok {σ : Type} (app : App σ) :
    page_ok (app.ensure_record_visible app.filtered_records.length) := by
  unfold App.ensure_record_visible
  by_cases h : app.filtered_records.length = 0
  · rw [if_pos h]
    exact page_ok_zero _ rfl
  · rw [if_neg h]
    have hpc := record_page_count_pos app _ (Nat.pos_of_ne_zero h)
    constructor
    · intro hx
      exact absurd (show app.filtered_records.length = 0 from hx) h
    · intro hN
      show min (app.selected_record / app.page_size)
          (app.record_page_count app.filtered_records.length - 1)
        < app.record_page_count app.filtered_records.length
      exact Nat.lt_of_le_of_lt (Nat.min_le_right _ _) (by omega)

/-- C5: the §3 page-index invariant is preserved by record navigation, page
navigation, filter submit, record-list refresh (with any backend outcome), and
page-size resize. -/
theorem C5_page_index_invariant {σ : Type} (B : Backend σ) (app : App σ)
    (height : Nat) (h : page_ok app) :
    page_ok app.next_record
    ∧ page_ok app.previous_record
    ∧ page_ok app.next_page
    ∧ page_ok app.previous_page
    ∧ page_ok (handle_search_key .enter app).2
    ∧ page_ok (app.refresh_records B).2
    ∧ page_ok (app.update_record_page_size height) := by
  refine ⟨?_, ?_, ?_, ?_, ?_, ?_, ?_⟩
  · unfold App.next_record
    by_cases hN : app.filtered_records.length = 0
    · rw [if_pos hN]
      exact h
    · rw [if_neg hN]
      exact ensure_record_visible_page_ok _
  · unfold App.previous_record
    by_cases hN : app.filtered_records.length = 0
    · rw [if_pos hN]
      exact h
    · rw [if_neg hN]
      by_cases hs : app.selected_record = 0
      · rw [if_pos hs]
        exact ensure_record_visible_page_ok _
      · rw [if_neg hs]
        exact ensure_record_visible_page_ok _
  · unfold App.next_page
    by_cases hc : app.record_page_count app.filtered_records.length = 0
    · rw [if_pos hc]
      exact h
    · rw [if_neg hc]
      have hpc : 0 < app.record_page_count app.filtered_records.length := by omega
      have hN : app.filtered_records.length ≠ 0 := by
        intro hx
        rw [hx] at hc
        simp [App.record_page_count] at hc
      constructor
      · intro hx
        exact absurd (show app.filtered_records.length = 0 from hx) hN
      · intro _
        show (app.record_page + 1) % app.record_page_count app.filtered_records.length
            < app.record_page_count app.filtered_records.length
        exact Nat.mod_lt _ hpc
  · unfold App.previous_page
    by_cases hc : app.record_page_count app.filtered_records.length = 0
    · rw [if_pos hc]
      exact h
    · rw [if_neg hc]
      have hpc : 0 < app.record_page_count app.filtered_records.length := by omega
      have hN : app.filtered_records.length ≠ 0 := by
        intro hx
        rw [hx] at hc
        simp [App.record_page_count] at hc
      by_cases hz : app.record_page = 0
      · rw [if_pos hz]
        constructor
        · intro hx
          exact absurd (show app.filtered_records.length = 0 from hx) hN
        · intro _
          show app.record_page_count app.filtered_records.length - 1
              < app.record_page_count app.filtered_records.length
          omega
      · rw [if_neg hz]
        obtain ⟨h0, hlt⟩ := h
        have hp := hlt hN
        constructor
        · intro hx
          exact absurd (show app.filtered_records.length = 0 from hx) hN
        · intro _
          show app.record_page - 1
              < app.record_page_count app.filtered_records.length
          omega
  · unfold handle_search_key
    rcases hm : app.mode
    · exact h
    · exact h
    · exact h
    · exact h
    · exact page_ok_zero _ rfl
  · unfold App.refresh_records
    split
    · split
      · exact h
      · exact page_ok_zero _ rfl
    · exact page_ok_zero _ rfl
  · simp only [App.update_record_page_size]
    by_cases hsz : max (height - 3) 1 ≠ app.record_page_size
    · rw [if_pos hsz]
      exact ensure_record_visible_page_ok _
    · rw [if_neg hsz]
      exact h

/-- Closed witness for C5 at a concrete app satisfying the invariant. -/
theorem C5_witness :
    page_ok appPages.next_record
    ∧ page_ok appPages.previous_record
    ∧ page_ok appPages.next_page
    ∧ page_ok appPages.previous_page
    ∧ page_ok (handle_search_key .enter appPages).2
    ∧ page_ok (appPages.refresh_records unitBackend).2
    ∧ page_ok (appPages.update_record_page_size 9) :=
  C5_page_index_invariant unitBackend appPages 9
    ⟨fun _ => rfl, fun _ => by decide⟩

/-! ## C7: searching modal submit and cancel -/

/-- C7: in the Searching modal, Enter commits the edited buffer as the active
filter, resets the page index and the selected record index to 0, and returns
to Normal; Esc returns to Normal leaving the active filter, page index, and
selection exactly as they were. -/
theorem C7_search_submit_and_cancel {σ : Type} (app : App σ) (buf : String)
    (h : app.mode = .searching buf) :
    handle_search_key .enter app
      = (.ok false, { app with record_filter := buf, record_page := 0
                               selected_record := 0, mode := .normal })
    ∧ handle_search_key .esc app = (.ok false, { app with mode := .normal }) := by
  constructor <;> simp [handle_search_key, h]

/-- Closed witness for C7 at a concrete app state in the Searching modal. -/
theorem C7_witness :
    handle_search_key .enter appSearch
      = (.ok false, { appSearch with record_filter := "cdn", record_page := 0
                                     selected_record := 0, mode := .normal })
    ∧ handle_search_key .esc appSearch
      = (.ok false, { appSearch with mode := .normal }) :=
  C7_search_submit_and_cancel appSearch "cdn" rfl

/-! ## C8: `ensure_record_visible` is idempotent -/

/-- C8: applying `ensure_record_visible` twice with the same selected record
index and total filtered count yields the same state as applying it once. -/
theorem C8_ensure_record_visible_idempotent {σ : Type} (app : App σ) (total : Nat) :
    (app.ensure_record_visible total).ensure_record_visible total
      = app.ensure_record_visible total := by
  by_cases h : total = 0 <;>
    simp [App.ensure_record_visible, App.record_page_count, App.page_size, h]

/-! ## C10: accounts built by the add-account form -/

/-- C10: every account built by `AccountForm::build_account` has Token auth
mode, trimmed non-empty name and api token, and optional email/account id that
are absent exactly when the trimmed inputs are empty. -/
theorem C10_build_account (form : AccountForm) (acc : Account)
    (h : form.build_account = .ok acc) :
    acc.auth_mode = .token
    ∧ acc.name = strTrim form.name ∧ acc.name ≠ ""
    ∧ acc.api_token = strTrim form.api_token ∧ acc.api_token ≠ ""
    ∧ acc.email = (if strTrim form.email = "" then none else some (strTrim form.email))
    ∧ acc.account_id
        = (if strTrim form.account_id = "" then none
           else some (strTrim form.account_id)) := by
  unfold AccountForm.build_account at h
  by_cases hr : form.is_ready
  · simp [hr] at h
    have hready := hr
    unfold AccountForm.is_ready at hready
    simp [Bool.and_eq_true] at hready
    subst h
    refine ⟨rfl, rfl, ?_, rfl, ?_, ?_, ?_⟩
    · intro hx
      have hb := (String.isEmpty_iff (strTrim form.name)).2 hx
      simp [hready.1] at hb
    · intro hx
      have hb := (String.isEmpty_iff (strTrim form.api_token)).2 hx
      simp [hready.2] at hb
    · by_cases he : strTrim form.email = ""
      · simp [he]
        decide
      · have : ¬ (strTrim form.email).isEmpty := fun hx => he ((String.isEmpty_iff _).1 hx)
        simp [he, this]
    · by_cases ha : strTrim form.account_id = ""
      · simp [ha]
        decide
      · have : ¬ (strTrim form.account_id).isEmpty :=
          fun hx => ha ((String.isEmpty_iff _).1 hx)
        simp [ha, this]
  · simp [hr] at h

/-! ## C6: record id materialized by the create-mode record form -/

/-- C6 (counterexample): with a record selected, opening the record form in
create mode and materializing the draft dispatches a record to the Backend
Contract whose id is the selected record's id, not the reserved placeholder
"new": `start_record_form` captures `target_id` from the current record even
when `is_edit` is false. -/
theorem C6_counterexample :
    (pressKeys recordingBackend
        [.char 'n', .char 'x', .enter, .enter, .enter, .enter, .enter]
        appRecSel).backend
      = some { id := "demo-01-a", name := "x", record_type := "A", content := ""
               ttl := 300, proxied := true }
    ∧ ("demo-01-a" : String) ≠ "new" := by
  refine ⟨?_, ?_⟩ <;> decide

/-- C6 (amended): when the record form is opened in create mode, the id a
successful draft materialization carries is the id of the record selected at
form-open time when one exists, and the reserved placeholder "new" otherwise. -/
theorem C6_create_form_target_id {σ : Type} (app : App σ) (form : RecordForm)
    (h : (app.start_record_form false).mode = .recordForm form) :
    form.is_edit = false
    ∧ form.target_id = app.current_record.map DnsRecord.id
    ∧ (∀ draft : RecordDraft, ∀ rec : DnsRecord,
        draft.to_record (form.target_id.getD "new") = .ok rec →
          rec.id = (app.current_record.map DnsRecord.id).getD "new")
    ∧ (app.current_record = none → form.target_id.getD "new" = "new") := by
  unfold App.start_record_form at h
  simp only [Mode.recordForm.injEq] at h
  subst h
  refine ⟨rfl, rfl, ?_, ?_⟩
  · intro draft rec hrec
    unfold RecordDraft.to_record at hrec
    rcases hp : parse_u32 (strTrim draft.ttl) with _ | ttl
    · rw [hp] at hrec
      exact absurd hrec (by simp)
    · rw [hp] at hrec
      by_cases he : (strTrim draft.name).isEmpty || (strTrim draft.record_type).isEmpty
      · simp [he] at hrec
      · simp [he] at hrec
        subst hrec
        rfl
  · intro hnone
    simp [hnone]

/-- Closed witness for C6 at a concrete app with a selected record. -/
theorem C6_witness :
    formRec.is_edit = false
    ∧ formRec.target_id = appNormal.current_record.map DnsRecord.id
    ∧ (∀ draft : RecordDraft, ∀ rec : DnsRecord,
        draft.to_record (formRec.target_id.getD "new") = .ok rec →
          rec.id = (appNormal.current_record.map DnsRecord.id).getD "new")
    ∧ (appNormal.current_record = none → formRec.target_id.getD "new" = "new") :=
  C6_create_form_target_id appNormal formRec (by decide)

/-- Closed witness for C10 at a concrete form. -/
theorem C10_witness :
    accW.auth_mode = .token
    ∧ accW.name = strTrim formW.name ∧ accW.name ≠ ""
    ∧ accW.api_token = strTrim formW.api_token ∧ accW.api_token ≠ ""
    ∧ accW.email
        = (if strTrim formW.email = "" then none else some (strTrim formW.email))
    ∧ accW.account_id
        = (if strTrim formW.account_id = "" then none
           else some (strTrim formW.account_id)) :=
  C10_build_account formW accW (by rfl)

end Nyxflare

